import Mathlib

/-!
Verification of the SH1106 / SSD1306 MicroPython OLED drivers
(`src/sh1106.py`, `src/ssd1306.py`).

The drivers are shallowly embedded: bytes are `Nat`, a bus transaction
(`i2c.writeto(addr, payload)`) is a `Write`, and the command/data stream a
driver method produces is a `List Elem` (spec §3 `CommandSequence`) or,
after transport framing, a `List Write`.  Display state (`self.width`,
`self.height`, `self.pages`, `self.buffer`, `self.addr`,
`self.external_vcc`) is the structure `Disp`; methods that in Python
mutate state are explicit state-passing functions.
-/

/-- One bus transaction: `i2c.writeto(addr, payload)`. -/
structure Write where
  addr : Nat
  payload : List Nat
deriving DecidableEq, Repr

/-- One element of a command/data sequence (spec §3 `CommandSequence`):
either a single command byte or a run of data bytes. -/
inductive Elem where
  | cmd : Nat → Elem
  | dataRun : List Nat → Elem
deriving DecidableEq, Repr

-- Command constants from the top of `src/sh1106.py` / `src/ssd1306.py`.
-- (`SET_MUX_RATIO` in the source is rendered `SET_MUX_RATE` here.)

def SET_CONTRAST : Nat := 0x81
def SET_ENTIRE_ON : Nat := 0xA4
def SET_NORM_INV : Nat := 0xA6
def SET_DISP : Nat := 0xAE
def SET_MEM_ADDR : Nat := 0x20
def SET_COL_ADDR : Nat := 0x21
def SET_PAGE_ADDR : Nat := 0x22
def SET_DISP_START_LINE : Nat := 0x40
def SET_SEG_REMAP : Nat := 0xA0
def SET_MUX_RATE : Nat := 0xA8
def SET_COM_OUT_DIR : Nat := 0xC0
def SET_DISP_OFFSET : Nat := 0xD3
def SET_COM_PIN_CFG : Nat := 0xDA
def SET_DISP_CLK_DIV : Nat := 0xD5
def SET_PRECHARGE : Nat := 0xD9
def SET_VCOM_DESEL : Nat := 0xDB
def SET_CHARGE_PUMP : Nat := 0x8D
def SH1106_SET_PAGE_ADDR : Nat := 0xB0
def SH1106_SET_LOW_COL : Nat := 0x00
def SH1106_SET_HIGH_COL : Nat := 0x10

/-- `write_data`'s `chunk_size = 32` constant (identical in both drivers). -/
def chunk_size : Nat := 32

/-- The chunking loop of `write_data`:
`for i in range(0, len(buf), n): chunk = buf[i:i+n]`.
`range(0, L, n)` has `ceil(L/n)` elements, and `buf[i:i+n]` is
`(buf.drop i).take n`. -/
def chunksOf (n : Nat) (buf : List Nat) : List (List Nat) :=
  (List.range ((buf.length + n - 1) / n)).map (fun i => (buf.drop (n * i)).take n)

/-- `write_cmd(cmd)` of both drivers: one write with payload `[0x80, cmd]`. -/
def write_cmd (addr cmd : Nat) : Write :=
  ⟨addr, [0x80, cmd]⟩

/-- `write_data(buf)` of both drivers: one write per `chunk_size` chunk,
each with payload `[0x40] + chunk`. -/
def write_data (addr : Nat) (buf : List Nat) : List Write :=
  (chunksOf chunk_size buf).map (fun ch => ⟨addr, 0x40 :: ch⟩)

/-- Transport framing of a single sequence element (spec §4.4): a
`Command` goes through `write_cmd`, a `DataRun` through `write_data`. -/
def frame (addr : Nat) : Elem → List Write
  | .cmd c => [write_cmd addr c]
  | .dataRun buf => write_data addr buf

/-- Transport framing of a whole command/data sequence, in order. -/
def writesOf (addr : Nat) (s : List Elem) : List Write :=
  s.flatMap (frame addr)

/-- Display state common to `SH1106_I2C` and `CustomSSD1306`. -/
structure Disp where
  width : Nat
  height : Nat
  pages : Nat
  buffer : List Nat
  addr : Nat
  external_vcc : Bool
deriving DecidableEq, Repr

/-- `__init__` of both drivers (identical lines): `pages = height // 8`,
`buffer = bytearray(pages * width)` (all zero).  There is no dimension
validation anywhere in either constructor. -/
def mkDisp (width height addr : Nat) (external_vcc : Bool) : Disp :=
  { width := width
    height := height
    pages := height / 8
    buffer := List.replicate ((height / 8) * width) 0x00
    addr := addr
    external_vcc := external_vcc }

/-- Modelled from the spec: `framebuf.FrameBuffer.fill` is MicroPython
library code, not part of this repository; spec §4.1 says `fill(value)`
sets every byte of the packed buffer to `0x00` or `0xFF`. -/
def fillBuf (d : Disp) (c : Nat) : Disp :=
  { d with buffer := List.replicate (d.pages * d.width) (if c = 0 then 0x00 else 0xFF) }

/-- `col_offset = 2 if self.width == 128 else 0` (`src/sh1106.py` line 89). -/
def sh_colOffset (d : Disp) : Nat :=
  if d.width = 128 then 2 else 0

/-- One iteration of the `show` loop of `SH1106_I2C` (lines 84–97) at the
command/data-sequence level: three `write_cmd` calls, then one
`write_data` call on `buffer[page*width : page*width + width]`. -/
def sh_pageBlock (d : Disp) (page : Nat) : List Elem :=
  [ .cmd (SH1106_SET_PAGE_ADDR ||| page),
    .cmd (SH1106_SET_LOW_COL ||| (sh_colOffset d &&& 0x0F)),
    .cmd (SH1106_SET_HIGH_COL ||| (sh_colOffset d >>> 4)),
    .dataRun ((d.buffer.drop (page * d.width)).take d.width) ]

/-- `SH1106_I2C.show` at the sequence level: `for page in range(self.pages)`,
emitting one `sh_pageBlock` per page. -/
def sh_showSeq (d : Disp) : List Elem :=
  ((List.range d.pages).map (sh_pageBlock d)).flatten

/-- One iteration of `SH1106_I2C.show` at the transport level, threading
the display state exactly as the Python method body does (it only reads
`self`, every write goes to the bus log). -/
def sh_showStep (st : Disp × List Write) (page : Nat) : Disp × List Write :=
  let d := st.1
  let w1 := write_cmd d.addr (SH1106_SET_PAGE_ADDR ||| page)
  let off := if d.width = 128 then 2 else 0
  let w2 := write_cmd d.addr (SH1106_SET_LOW_COL ||| (off &&& 0x0F))
  let w3 := write_cmd d.addr (SH1106_SET_HIGH_COL ||| (off >>> 4))
  let pd := (d.buffer.drop (page * d.width)).take d.width
  (d, st.2 ++ [w1, w2, w3] ++ write_data d.addr pd)

/-- `SH1106_I2C.show` at the transport level. -/
def sh_show (d : Disp) : Disp × List Write :=
  (List.range d.pages).foldl sh_showStep (d, [])

/-- The `init_commands` list literal of `SH1106_I2C.init_display`
(lines 57–73). -/
def sh_init_commands (height : Nat) (external_vcc : Bool) : List Nat :=
  [ SET_DISP ||| 0x00,
    SET_DISP_CLK_DIV, 0x80,
    SET_MUX_RATE, height - 1,
    SET_DISP_OFFSET, 0x00,
    SET_DISP_START_LINE ||| 0x00,
    SET_CHARGE_PUMP, if external_vcc then 0x10 else 0x14,
    SET_SEG_REMAP ||| 0x01,
    SET_COM_OUT_DIR ||| 0x08,
    SET_COM_PIN_CFG, 0x12,
    SET_CONTRAST, 0x80,
    SET_PRECHARGE, if external_vcc then 0x22 else 0xF1,
    SET_VCOM_DESEL, 0x40,
    SET_ENTIRE_ON,
    SET_NORM_INV,
    SET_DISP ||| 0x01 ]

/-- `SH1106_I2C.init_display` at the sequence level: the command list,
then `fill(0)` and `show()`. -/
def sh_initSeq (d : Disp) : List Elem :=
  (sh_init_commands d.height d.external_vcc).map .cmd ++ sh_showSeq (fillBuf d 0)

/-- `SH1106_I2C.poweroff`. -/
def sh_poweroffSeq : List Elem := [.cmd (SET_DISP ||| 0x00)]

/-- `SH1106_I2C.poweron`. -/
def sh_poweronSeq : List Elem := [.cmd (SET_DISP ||| 0x01)]

/-- `SH1106_I2C.contrast` / `CustomSSD1306.contrast`: opcode then operand,
as two separate commands. -/
def contrastSeq (v : Nat) : List Elem := [.cmd SET_CONTRAST, .cmd v]

/-- `SH1106_I2C.invert` / `CustomSSD1306.invert`. -/
def invertSeq (inv : Nat) : List Elem := [.cmd (SET_NORM_INV ||| (inv &&& 1))]

/-- `SH1106_I2C.rotate` (lines 116–123). -/
def sh_rotateSeq (flag : Bool) : List Elem :=
  if flag then
    [.cmd SET_COM_OUT_DIR, .cmd SET_SEG_REMAP]
  else
    [.cmd (SET_COM_OUT_DIR ||| 0x08), .cmd (SET_SEG_REMAP ||| 0x01)]

/-- The `if/elif` COM-pin / contrast table of `CustomSSD1306.init_display`
(lines 96–119), returning `(com_pins, contrast)`. -/
def ssd1306_profile (width height : Nat) (external_vcc : Bool) : Nat × Nat :=
  if width = 128 ∧ height = 64 then
    (0x12, if external_vcc then 0x9F else 0xCF)
  else if width = 128 ∧ height = 32 then
    (0x02, 0x8F)
  else if width = 96 ∧ height = 16 then
    (0x02, if external_vcc then 0x10 else 0xAF)
  else if width = 64 ∧ height = 32 then
    (0x12, if external_vcc then 0x10 else 0xCF)
  else
    (0x02, 0x8F)

/-- The command bytes issued by `CustomSSD1306.init_display`
(lines 61–148), in order. -/
def ssd_init_commands (d : Disp) : List Nat :=
  [ SET_DISP ||| 0x00,
    SET_DISP_CLK_DIV, 0x80,
    SET_MUX_RATE, d.height - 1,
    SET_DISP_OFFSET, 0x0,
    SET_DISP_START_LINE ||| 0x0,
    SET_CHARGE_PUMP, if d.external_vcc then 0x10 else 0x14,
    SET_MEM_ADDR, 0x00,
    SET_SEG_REMAP ||| 0x1,
    SET_COM_OUT_DIR ||| 0x08,
    SET_COM_PIN_CFG, (ssd1306_profile d.width d.height d.external_vcc).1,
    SET_CONTRAST, (ssd1306_profile d.width d.height d.external_vcc).2,
    SET_PRECHARGE, if d.external_vcc then 0x22 else 0xF1,
    SET_VCOM_DESEL, 0x40,
    SET_ENTIRE_ON,
    SET_NORM_INV,
    0x2E,
    SET_DISP ||| 0x01 ]

/-- `CustomSSD1306.show` (lines 155–168) at the sequence level: column
range, page range, then the entire buffer as one data run. -/
def ssd_showSeq (d : Disp) : List Elem :=
  [ .cmd SET_COL_ADDR, .cmd 0, .cmd (d.width - 1),
    .cmd SET_PAGE_ADDR, .cmd 0, .cmd (d.pages - 1),
    .dataRun d.buffer ]

/-- `CustomSSD1306.show` at the transport level: six `write_cmd` calls
then `write_data(self.buffer)`; the method only reads `self`. -/
def ssd_show (d : Disp) : Disp × List Write :=
  (d, [ write_cmd d.addr SET_COL_ADDR,
        write_cmd d.addr 0,
        write_cmd d.addr (d.width - 1),
        write_cmd d.addr SET_PAGE_ADDR,
        write_cmd d.addr 0,
        write_cmd d.addr (d.pages - 1) ] ++ write_data d.addr d.buffer)

/-- The command bytes of a sequence, in order (data runs carry none). -/
def cmdBytes : List Elem → List Nat
  | [] => []
  | .cmd c :: r => c :: cmdBytes r
  | .dataRun _ :: r => cmdBytes r

/-- Effect of one command byte on the controller's two orientation
registers `(com_out_dir, seg_remap)`: the four orientation command bytes
this driver ever issues latch into their register, every other byte
leaves both unchanged. -/
def orientStep (st : Nat × Nat) (c : Nat) : Nat × Nat :=
  if c = SET_COM_OUT_DIR ∨ c = SET_COM_OUT_DIR ||| 0x08 then (c, st.2)
  else if c = SET_SEG_REMAP ∨ c = SET_SEG_REMAP ||| 0x01 then (st.1, c)
  else st

/-- Orientation registers after a stream of command bytes. -/
def orientAfter (st : Nat × Nat) (l : List Nat) : Nat × Nat :=
  l.foldl orientStep st

/-- The 128×64 paged display of the round-trip scenario, with `fill(1)`
applied: every buffer byte is `0xFF`. -/
def d128full : Disp := fillBuf (mkDisp 128 64 0x3C false) 1

/-! ### Helper lemmas -/

/-- `write_data` produces one write per chunk index, i.e. `ceil(L/n)` of them. -/
theorem chunksOf_length (n : Nat) (buf : List Nat) :
    (chunksOf n buf).length = (buf.length + n - 1) / n := by
  simp [chunksOf]

theorem chunksOf_flatten_aux (n : Nat) :
    ∀ (k : Nat) (l : List Nat),
      ((List.range k).map (fun i => (l.drop (n * i)).take n)).flatten = l.take (n * k) := by
  intro k
  induction k with
  | zero => intro l; simp
  | succ k ih =>
    intro l
    rw [List.range_succ_eq_map, List.map_cons, List.map_map, List.flatten_cons]
    have hfun : ((fun i => (l.drop (n * i)).take n) ∘ Nat.succ)
        = fun i => ((l.drop n).drop (n * i)).take n := by
      funext i
      simp only [Function.comp_apply, List.drop_drop]
      have h : n * Nat.succ i = n + n * i :=
        (Nat.mul_succ n i).trans (Nat.add_comm _ _)
      rw [h]
    rw [hfun, ih (l.drop n)]
    have h1 : n * Nat.succ k = n + n * k :=
      (Nat.mul_succ n k).trans (Nat.add_comm _ _)
    rw [h1, List.take_add]
    simp

/-- Concatenating the chunks of `write_data`'s loop restores the buffer. -/
theorem chunksOf_flatten (n : Nat) (hn : 0 < n) (buf : List Nat) :
    (chunksOf n buf).flatten = buf := by
  rw [chunksOf, chunksOf_flatten_aux]
  apply List.take_of_length_le
  have h1 := Nat.div_add_mod (buf.length + n - 1) n
  have h2 := Nat.mod_lt (buf.length + n - 1) hn
  obtain ⟨m, hm⟩ : ∃ m, n * ((buf.length + n - 1) / n) = m := ⟨_, rfl⟩
  rw [hm] at h1 ⊢
  omega

/-- Every chunk holds at most `n` bytes. -/
theorem chunksOf_mem_length {n : Nat} {buf ch : List Nat} (h : ch ∈ chunksOf n buf) :
    ch.length ≤ n := by
  rw [chunksOf, List.mem_map] at h
  obtain ⟨i, _, hch⟩ := h
  rw [← hch]
  simp [List.length_take]

theorem flatten_blocks_length (g : Nat → List Elem) (k : Nat)
    (hg : ∀ i, (g i).length = k) :
    ∀ m, (((List.range m).map g).flatten).length = k * m := by
  intro m
  induction m with
  | zero => simp
  | succ m ih =>
    rw [List.range_succ, List.map_append, List.flatten_append, List.length_append, ih]
    simp [hg]
    exact (Nat.mul_succ k m).symm

theorem flatten_blocks_extract (g : Nat → List Elem) (k : Nat)
    (hg : ∀ i, (g i).length = k) :
    ∀ m p, p < m →
      ((((List.range m).map g).flatten).drop (k * p)).take k = g p := by
  intro m
  induction m with
  | zero => intro p hp; omega
  | succ m ih =>
    intro p hp
    rw [List.range_succ, List.map_append, List.flatten_append]
    rcases Nat.lt_or_ge p m with h | h
    · have hlen : (((List.range m).map g).flatten).length = k * m :=
        flatten_blocks_length g k hg m
      have hdrop : k * p ≤ (((List.range m).map g).flatten).length := by
        rw [hlen]; exact Nat.mul_le_mul_left k (Nat.le_of_lt h)
      rw [List.drop_append_of_le_length hdrop]
      have htake : k ≤ ((((List.range m).map g).flatten).drop (k * p)).length := by
        rw [List.length_drop, hlen]
        have : k * (p + 1) ≤ k * m := Nat.mul_le_mul_left k h
        have h2 : k * (p + 1) = k * p + k := by ring
        omega
      rw [List.take_append_of_le_length htake]
      exact ih p h
    · have hpm : p = m := by omega
      subst hpm
      have hlen : (((List.range p).map g).flatten).length = k * p :=
        flatten_blocks_length g k hg p
      rw [← hlen, List.drop_left]
      simp only [List.map_cons, List.map_nil, List.flatten_cons, List.flatten_nil,
        List.append_nil]
      exact List.take_of_length_le (by rw [hg p])

theorem sh_pageBlock_length (d : Disp) (i : Nat) : (sh_pageBlock d i).length = 4 := rfl

theorem foldl_sh_showStep_fst :
    ∀ (l : List Nat) (st : Disp × List Write), (l.foldl sh_showStep st).1 = st.1 := by
  intro l
  induction l with
  | nil => intro st; rfl
  | cons a l ih =>
    intro st
    rw [List.foldl_cons, ih]
    rfl

/-- Length of the page slice `buffer[p*width : p*width + width]` when the
buffer has its invariant length `pages * width`. -/
theorem page_slice_length (d : Disp) (p : Nat)
    (hb : d.buffer.length = d.pages * d.width) (hp : p < d.pages) :
    ((d.buffer.drop (p * d.width)).take d.width).length = d.width := by
  have h2 : p * d.width + d.width ≤ d.pages * d.width := by
    have h1 : (p + 1) * d.width ≤ d.pages * d.width :=
      Nat.mul_le_mul_right d.width hp
    calc p * d.width + d.width = (p + 1) * d.width := (Nat.succ_mul p d.width).symm
    _ ≤ d.pages * d.width := h1
  rw [List.length_take, List.length_drop, hb]
  omega

set_option maxRecDepth 100000

/-! ### Claim theorems -/

/-- C1, counterexample: a 32-byte `DataRun` is written by `write_data` as a
single transport write (one 32-byte chunk behind one `0x40` control byte),
whereas the claimed count `ceil(L / (M-1))` with `L = 32`, `M = 32` is 2. -/
theorem sh1106_chunk_count_cex :
    (frame 0x3C (Elem.dataRun (List.replicate 32 0x00))).length = 1 ∧
    ((List.replicate 32 0x00 : List Nat).length + (32 - 1) - 1) / (32 - 1) = 2 ∧
    (frame 0x3C (Elem.dataRun (List.replicate 32 0x00))).length ≠
      ((List.replicate 32 0x00 : List Nat).length + (32 - 1) - 1) / (32 - 1) := by
  decide

/-- C1 (amended): for every `DataRun` of length `L`, `write_data` produces
exactly `ceil(L / M)` transport writes, where `M = chunk_size = 32` counts
data bytes per chunk; each write's payload starts with `0x40` and holds at
most `M` data bytes after it (so at most `M + 1` bytes in total). -/
theorem dataRun_write_count (a : Nat) (buf : List Nat) :
    (frame a (Elem.dataRun buf)).length = (buf.length + chunk_size - 1) / chunk_size ∧
    ∀ w ∈ frame a (Elem.dataRun buf),
      w.payload.head? = some 0x40 ∧ w.payload.length ≤ chunk_size + 1 := by
  constructor
  · show (write_data a buf).length = _
    rw [write_data, List.length_map, chunksOf_length]
  · intro w hw
    show w.payload.head? = some 0x40 ∧ w.payload.length ≤ chunk_size + 1
    rw [frame] at hw
    rw [write_data, List.mem_map] at hw
    obtain ⟨ch, hch, hw⟩ := hw
    subst hw
    refine ⟨rfl, ?_⟩
    have := chunksOf_mem_length hch
    simp only [List.length_cons]
    omega

/-- C1 witness: a 40-byte run yields `ceil(40/32) = 2` writes, and its first
chunk write `[0x40] ++ 32 bytes` satisfies the per-write conditions. -/
theorem dataRun_write_count_witness :
    (frame 0x3C (Elem.dataRun (List.replicate 40 0x07))).length =
      ((List.replicate 40 0x07 : List Nat).length + chunk_size - 1) / chunk_size ∧
    (Write.mk 0x3C (0x40 :: List.replicate 32 0x07)).payload.head? = some 0x40 ∧
    (Write.mk 0x3C (0x40 :: List.replicate 32 0x07)).payload.length ≤ chunk_size + 1 := by
  have h := dataRun_write_count 0x3C (List.replicate 40 0x07)
  exact ⟨h.1, (h.2 _ (by decide)).1, (h.2 _ (by decide)).2⟩

/-- C2: for every well-formed paged display, `show` is exactly one 4-element
block per page — page-select `0xB0|p`, low column, high column, then a
`DataRun` of exactly the `width` buffer bytes at offset `p*width` — and on
the 128×64 all-`0xFF` display it is exactly 8 such blocks, each with a
3-command header and a 128-byte all-`0xFF` data run. -/
theorem sh1106_show_page_structure :
    (∀ (d : Disp), d.buffer.length = d.pages * d.width →
      (sh_showSeq d).length = 4 * d.pages ∧
      ∀ p, p < d.pages →
        ((sh_showSeq d).drop (4 * p)).take 4 =
          [Elem.cmd (SH1106_SET_PAGE_ADDR ||| p),
           Elem.cmd (SH1106_SET_LOW_COL ||| (sh_colOffset d &&& 0x0F)),
           Elem.cmd (SH1106_SET_HIGH_COL ||| (sh_colOffset d >>> 4)),
           Elem.dataRun ((d.buffer.drop (p * d.width)).take d.width)] ∧
        ((d.buffer.drop (p * d.width)).take d.width).length = d.width) ∧
    sh_showSeq d128full =
      ((List.range 8).map (fun p =>
        [Elem.cmd (0xB0 ||| p), Elem.cmd 0x02, Elem.cmd 0x10,
         Elem.dataRun (List.replicate 128 0xFF)])).flatten := by
  constructor
  · intro d hb
    constructor
    · rw [sh_showSeq]
      exact flatten_blocks_length (sh_pageBlock d) 4 (sh_pageBlock_length d) d.pages
    · intro p hp
      refine ⟨?_, page_slice_length d p hb hp⟩
      rw [sh_showSeq]
      exact flatten_blocks_extract (sh_pageBlock d) 4 (sh_pageBlock_length d) d.pages p hp
  · decide

/-- C2 witness: the 128×64 all-`0xFF` display is well-formed and its `show`
sequence has `4 * 8` elements. -/
theorem sh1106_show_page_structure_witness :
    (sh_showSeq d128full).length = 4 * d128full.pages := by
  have hb : d128full.buffer.length = d128full.pages * d128full.width := by decide
  exact (sh1106_show_page_structure.1 d128full hb).1

/-- C3: the COM-pin/contrast table of `CustomSSD1306.init_display` resolves
each of the five documented cases exactly as claimed, and any other
`(width, height)` pair takes the default branch `(0x02, 0x8F)`; the
resolution is a total function, so it never fails. -/
theorem ssd1306_profile_table :
    (∀ v, ssd1306_profile 128 64 v = (0x12, if v then 0x9F else 0xCF)) ∧
    (∀ v, ssd1306_profile 128 32 v = (0x02, 0x8F)) ∧
    (∀ v, ssd1306_profile 96 16 v = (0x02, if v then 0x10 else 0xAF)) ∧
    (∀ v, ssd1306_profile 64 32 v = (0x12, if v then 0x10 else 0xCF)) ∧
    (∀ w h v, ¬(w = 128 ∧ h = 64) → ¬(w = 128 ∧ h = 32) → ¬(w = 96 ∧ h = 16) →
      ¬(w = 64 ∧ h = 32) → ssd1306_profile w h v = (0x02, 0x8F)) := by
  refine ⟨by decide, by decide, by decide, by decide, ?_⟩
  intro w h v h1 h2 h3 h4
  rw [ssd1306_profile, if_neg h1, if_neg h2, if_neg h3, if_neg h4]

/-- C3 witness: an undocumented pair, 100×48, resolves to the default
branch instead of failing. -/
theorem ssd1306_profile_table_witness :
    ssd1306_profile 100 48 false = (0x02, 0x8F) :=
  ssd1306_profile_table.2.2.2.2 100 48 false (by decide) (by decide) (by decide)
    (by decide)

/-- C4: the column offset of every `show` page block is 2 exactly when
`width = 128` and 0 otherwise, encoded as `0x00 | (off & 0x0F)` and
`0x10 | (off >> 4)` in the second and third command of the block. -/
theorem sh1106_column_offset_encoding (d : Disp) (p : Nat) (hp : p < d.pages) :
    (d.width = 128 → sh_colOffset d = 2) ∧
    (d.width ≠ 128 → sh_colOffset d = 0) ∧
    ((sh_showSeq d).drop (4 * p)).take 4 =
      [Elem.cmd (SH1106_SET_PAGE_ADDR ||| p),
       Elem.cmd (SH1106_SET_LOW_COL ||| (sh_colOffset d &&& 0x0F)),
       Elem.cmd (SH1106_SET_HIGH_COL ||| (sh_colOffset d >>> 4)),
       Elem.dataRun ((d.buffer.drop (p * d.width)).take d.width)] := by
  refine ⟨fun h => by rw [sh_colOffset, if_pos h], fun h => by rw [sh_colOffset, if_neg h], ?_⟩
  rw [sh_showSeq]
  exact flatten_blocks_extract (sh_pageBlock d) 4 (sh_pageBlock_length d) d.pages p hp

/-- C4 witness: on the 128-wide display the offset is 2 and page block 0
carries the offset-encoding column commands. -/
theorem sh1106_column_offset_encoding_witness :
    sh_colOffset d128full = 2 ∧
    ((sh_showSeq d128full).drop (4 * 0)).take 4 =
      [Elem.cmd (SH1106_SET_PAGE_ADDR ||| 0),
       Elem.cmd (SH1106_SET_LOW_COL ||| (sh_colOffset d128full &&& 0x0F)),
       Elem.cmd (SH1106_SET_HIGH_COL ||| (sh_colOffset d128full >>> 4)),
       Elem.dataRun ((d128full.buffer.drop (0 * d128full.width)).take d128full.width)] := by
  have h := sh1106_column_offset_encoding d128full 0 (by decide)
  exact ⟨h.1 (by decide), h.2.2⟩

/-- C5, counterexample: construction with `height = 12` (not a multiple of
8) does not fail — neither `__init__` contains any dimension check — and
silently truncates: `pages = 12 // 8 = 1`, so the buffer has `1 * 8 = 8`
bytes instead of covering all 12 pixel rows. -/
theorem display_construct_height12_cex :
    (mkDisp 8 12 0x3C false).pages = 1 ∧
    (mkDisp 8 12 0x3C false).buffer.length = 8 ∧
    (mkDisp 8 12 0x3C false).height = 12 ∧
    ¬ (12 % 8 = 0) := by
  decide

/-- C5 (amended): construction never fails on dimension grounds — for every
`width`/`height` the constructor yields a display with
`pages = height / 8` (floor) and a buffer of `pages * width` zero bytes; a
height not divisible by 8 silently loses its bottom `height % 8` rows
rather than raising `InvalidDimension`. -/
theorem display_construct_total (w h a : Nat) (v : Bool) :
    (mkDisp w h a v).width = w ∧ (mkDisp w h a v).height = h ∧
    (mkDisp w h a v).pages = h / 8 ∧
    (mkDisp w h a v).buffer.length = (h / 8) * w := by
  refine ⟨rfl, rfl, rfl, ?_⟩
  rw [mkDisp]
  exact List.length_replicate _ _

/-- C6: `CustomSSD1306.show` emits, in order, the column-range command with
operands 0 and `width-1`, the page-range command with operands 0 and
`pages-1`, then one `DataRun` of the whole buffer, whose length is
`pages*width`; the transport writes are the framing of that sequence. -/
theorem ssd1306_show_order (d : Disp) (hb : d.buffer.length = d.pages * d.width) :
    ssd_showSeq d =
      [Elem.cmd SET_COL_ADDR, Elem.cmd 0, Elem.cmd (d.width - 1),
       Elem.cmd SET_PAGE_ADDR, Elem.cmd 0, Elem.cmd (d.pages - 1),
       Elem.dataRun d.buffer] ∧
    d.buffer.length = d.pages * d.width ∧
    (ssd_show d).2 = writesOf d.addr (ssd_showSeq d) := by
  refine ⟨rfl, hb, ?_⟩
  rw [ssd_show, ssd_showSeq, writesOf]
  simp [frame, write_cmd]

/-- C6 witness: instantiated at a freshly constructed 128×64 display. -/
theorem ssd1306_show_order_witness :
    ssd_showSeq (mkDisp 128 64 0x3C false) =
      [Elem.cmd SET_COL_ADDR, Elem.cmd 0, Elem.cmd ((mkDisp 128 64 0x3C false).width - 1),
       Elem.cmd SET_PAGE_ADDR, Elem.cmd 0, Elem.cmd ((mkDisp 128 64 0x3C false).pages - 1),
       Elem.dataRun (mkDisp 128 64 0x3C false).buffer] :=
  (ssd1306_show_order (mkDisp 128 64 0x3C false) (by decide)).1

/-- C7: stripping the leading `0x40` control byte from each transport write
of a `DataRun` and concatenating the remainders, in order, restores the
original byte sequence exactly. -/
theorem dataRun_roundtrip (a : Nat) (buf : List Nat) :
    ((frame a (Elem.dataRun buf)).map (fun w => w.payload.tail)).flatten = buf := by
  show ((write_data a buf).map _).flatten = buf
  rw [write_data, List.map_map]
  have h : ((fun (w : Write) => w.payload.tail) ∘ fun ch => (⟨a, 0x40 :: ch⟩ : Write))
      = id := by
    funext ch
    rfl
  rw [h, List.map_id]
  exact chunksOf_flatten chunk_size (by decide) buf

/-- C8: each `rotate` call drives both orientation registers at once — to
`(0xC0, 0xA0)` for `rotate(true)`, to `(0xC0|0x08, 0xA0|0x01)` for
`rotate(false)` — so `rotate(true)` then `rotate(false)` returns both
registers to exactly the values `init_display` set (for any realistic
height, so that the mux-ratio operand cannot collide with an orientation
command byte). -/
theorem sh1106_rotate_pair_toggle (st : Nat × Nat) (h : Nat) (v : Bool)
    (hh : h ≤ 160) :
    (∀ flag, orientAfter st (cmdBytes (sh_rotateSeq flag)) =
      if flag then (SET_COM_OUT_DIR, SET_SEG_REMAP)
      else (SET_COM_OUT_DIR ||| 0x08, SET_SEG_REMAP ||| 0x01)) ∧
    orientAfter st (cmdBytes (sh_rotateSeq true) ++ cmdBytes (sh_rotateSeq false)) =
      (SET_COM_OUT_DIR ||| 0x08, SET_SEG_REMAP ||| 0x01) ∧
    orientAfter st (sh_init_commands h v) =
      (SET_COM_OUT_DIR ||| 0x08, SET_SEG_REMAP ||| 0x01) := by
  have hA : ¬(h - 1 = SET_COM_OUT_DIR ∨ h - 1 = SET_COM_OUT_DIR ||| 0x08) := by
    have e1 : SET_COM_OUT_DIR = 192 := rfl
    have e2 : (192 : Nat) ||| 0x08 = 200 := by decide
    rw [e1, e2]
    omega
  have hB : ¬(h - 1 = SET_SEG_REMAP ∨ h - 1 = SET_SEG_REMAP ||| 0x01) := by
    have e1 : SET_SEG_REMAP = 160 := rfl
    have e2 : (160 : Nat) ||| 0x01 = 161 := by decide
    rw [e1, e2]
    omega
  refine ⟨fun flag => ?_, ?_, ?_⟩
  · cases flag <;> rfl
  · rfl
  · cases v <;>
      simp [orientAfter, orientStep, sh_init_commands, hA, hB, SET_DISP,
        SET_DISP_CLK_DIV, SET_MUX_RATE, SET_DISP_OFFSET, SET_DISP_START_LINE,
        SET_CHARGE_PUMP, SET_SEG_REMAP, SET_COM_OUT_DIR, SET_COM_PIN_CFG,
        SET_CONTRAST, SET_PRECHARGE, SET_VCOM_DESEL, SET_ENTIRE_ON, SET_NORM_INV]

/-- C8 witness: instantiated at height 64, internal Vcc, starting from
registers `(0, 0)`. -/
theorem sh1106_rotate_pair_toggle_witness :
    orientAfter (0, 0) (sh_init_commands 64 false) =
      (SET_COM_OUT_DIR ||| 0x08, SET_SEG_REMAP ||| 0x01) :=
  (sh1106_rotate_pair_toggle (0, 0) 64 false (by decide)).2.2

/-- C9: framing turns every `Command` element into exactly one transport
write with the two-byte payload `[0x80, cmd]`; every write of any framed
sequence is either such a command write or a `0x40`-led data chunk; and a
multi-byte command such as contrast becomes two separate writes. -/
theorem command_single_write (a v : Nat) :
    (∀ c, frame a (Elem.cmd c) = [⟨a, [0x80, c]⟩]) ∧
    (∀ (s : List Elem) (w : Write), w ∈ writesOf a s →
      (∃ c, w = ⟨a, [0x80, c]⟩ ∧ w.payload.length = 2) ∨
      (∃ ch, w = ⟨a, 0x40 :: ch⟩)) ∧
    writesOf a (contrastSeq v) = [⟨a, [0x80, SET_CONTRAST]⟩, ⟨a, [0x80, v]⟩] := by
  refine ⟨fun c => rfl, ?_, rfl⟩
  intro s w hw
  rw [writesOf, List.mem_flatMap] at hw
  obtain ⟨e, _, hw⟩ := hw
  cases e with
  | cmd c =>
    left
    rw [frame, List.mem_singleton] at hw
    subst hw
    exact ⟨c, rfl, rfl⟩
  | dataRun buf =>
    right
    rw [frame, write_data, List.mem_map] at hw
    obtain ⟨ch, _, hw⟩ := hw
    exact ⟨ch, hw.symm⟩

/-- C9 witness: the display-off command framed inside a sequence is a
single two-byte `[0x80, 0xAE]` write. -/
theorem command_single_write_witness :
    (∃ c, (⟨0x3C, [0x80, 0xAE]⟩ : Write) = ⟨0x3C, [0x80, c]⟩ ∧
      (⟨0x3C, [0x80, 0xAE]⟩ : Write).payload.length = 2) ∨
    (∃ ch, (⟨0x3C, [0x80, 0xAE]⟩ : Write) = ⟨0x3C, 0x40 :: ch⟩) :=
  (command_single_write 0x3C 0).2.1 [Elem.cmd 0xAE] ⟨0x3C, [0x80, 0xAE]⟩ (by decide)

/-- C10: `show` never modifies the display state — for both drivers the
state component after the call (and, for the paged driver, after any
prefix of the page loop, covering a transport failure partway through) is
exactly the input state, so buffer, width, height and pages are unchanged. -/
theorem show_preserves_display_state (d e : Disp) (k : Nat) :
    (sh_show d).1 = d ∧
    (sh_show d).1.buffer = d.buffer ∧ (sh_show d).1.width = d.width ∧
    (sh_show d).1.height = d.height ∧ (sh_show d).1.pages = d.pages ∧
    (((List.range d.pages).take k).foldl sh_showStep (d, [])).1 = d ∧
    (ssd_show e).1 = e := by
  have h1 : (sh_show d).1 = d := foldl_sh_showStep_fst _ _
  exact ⟨h1, by rw [h1], by rw [h1], by rw [h1], by rw [h1],
    foldl_sh_showStep_fst _ _, rfl⟩
